import Mathlib

/-!
# llvmruby: value marshalling and the execution-engine binding

A shallow embedding of `src/ext/llvm_module.cpp` (`Val2GV`, `Gv2Val`,
`llvm_execution_engine_get`, `llvm_execution_engine_run_function_auto_args`)
and of `llvm_function_wrap` from `src/ext/llvm_function.cpp`.

The extension sits between two libraries that are not part of the repository:
the Ruby C API (`VALUE`, `TYPE`, `NUM2DBL`, `NUM2LONG`, `INT2NUM`, ...) and
LLVM 2.x (`Type`, `APInt`, `GenericValue`, `ExecutionEngine`).  Their data types
are modelled here as far as the four functions above use them; C arithmetic
that would need floating point (conversions between integers, `double` and
`float`) is taken as a parameter, see `Host`.
-/

namespace LLVMRuby

/-! ## The host runtime (Ruby) -/

/-- An IEEE-754 binary64 value, kept as its bit pattern.  The code only stores
and reloads doubles; it never computes with them. -/
structure Double where
  bits : Nat
deriving DecidableEq, Repr

/-- An IEEE-754 binary32 value, kept as its bit pattern. -/
structure Single where
  bits : Nat
deriving DecidableEq, Repr

/-- What the platform fixes: the size of a C `long` and the C conversions
between integers, `double` and `float`. -/
structure Host where
  /-- Value of `sizeof(long)`, in bytes. -/
  sizeof_long : Nat
  /-- Conversion `(double)n` of a host integer. -/
  long_to_double : Int → Double
  /-- Conversion `(long)d` of a double, `none` when `d` is out of range. -/
  double_to_long : Double → Option Int
  /-- Conversion `(float)d`. -/
  double_to_float : Double → Single
  /-- Conversion `(double)f`. -/
  float_to_double : Single → Double

/-- Number of bits of a C `long`: `sizeof(long)*8`. -/
def Host.longBits (H : Host) : Nat := H.sizeof_long * 8

/-- The type tags `TYPE(val)` can return (`ruby.h`). -/
inductive ruby_value_type where
  | T_NIL | T_OBJECT | T_CLASS | T_MODULE | T_FLOAT | T_STRING | T_REGEXP
  | T_ARRAY | T_HASH | T_STRUCT | T_BIGNUM | T_FILE | T_DATA | T_MATCH
  | T_TRUE | T_FALSE | T_SYMBOL | T_FIXNUM
deriving DecidableEq, Repr

/-- Tags of the heap objects that carry no payload of interest here. -/
inductive HeapKind where
  | T_OBJECT | T_CLASS | T_MODULE | T_STRING | T_REGEXP
  | T_ARRAY | T_HASH | T_STRUCT | T_FILE | T_MATCH
deriving DecidableEq, Repr

/-- The tag of a plain heap object. -/
def HeapKind.toType : HeapKind → ruby_value_type
  | .T_OBJECT => .T_OBJECT
  | .T_CLASS => .T_CLASS
  | .T_MODULE => .T_MODULE
  | .T_STRING => .T_STRING
  | .T_REGEXP => .T_REGEXP
  | .T_ARRAY => .T_ARRAY
  | .T_HASH => .T_HASH
  | .T_STRUCT => .T_STRUCT
  | .T_FILE => .T_FILE
  | .T_MATCH => .T_MATCH

/-! ## LLVM types, functions and modules -/

/-- The type categories of LLVM 2.x, `Type::TypeID`. -/
inductive TypeID where
  | VoidTyID | FloatTyID | DoubleTyID | X86_FP80TyID | FP128TyID
  | PPC_FP128TyID | LabelTyID | MetadataTyID | IntegerTyID | FunctionTyID
  | StructTyID | ArrayTyID | PointerTyID | OpaqueTyID | VectorTyID
deriving DecidableEq, Repr

/-- An LLVM `Type`: its category and, for integer types, the declared bit
width (which the marshalling code never reads). -/
structure LType where
  getTypeID : TypeID
  bitWidth : Nat
deriving DecidableEq, Repr

/-- A formal parameter of a function (`llvm::Argument`). -/
structure Argument where
  getType : LType
deriving DecidableEq, Repr

/-- An LLVM `Function`: a name, the ordered parameter list and the declared
return type. -/
structure Function where
  name : String
  getArgumentList : List Argument
  getReturnType : LType
deriving DecidableEq, Repr

/-- An LLVM `Module`, identified by its name. -/
structure Module where
  moduleID : String
deriving DecidableEq, Repr

/-! ## Host values -/

/-- What a `T_DATA` object created by `Data_Wrap_Struct` wraps: its class and
its `DATA_PTR`, which may be `NULL` (`none`). -/
inductive Wrapped where
  | cLLVMModule (m : Option Module)
  | cLLVMFunction (f : Option Function)
  | cLLVMFunctionType (t : Option (List LType × LType))
  | otherData (klass : Nat) (data : Nat)
deriving DecidableEq, Repr

/-- A Ruby `VALUE`.  Heap objects carry their address, which is the machine
word the `VALUE` itself holds. -/
inductive VALUE where
  | Qnil
  | Qtrue
  | Qfalse
  | integer (n : Int)
  | float (d : Double)
  | symbol (id : Nat)
  | heap (kind : HeapKind) (addr : Nat)
  | data (addr : Nat) (w : Wrapped)
deriving DecidableEq, Repr

/-- Ruby's `FIXABLE`: whether an integer fits the tagged immediate form. -/
def FIXABLE (H : Host) (n : Int) : Bool :=
  decide (-(2 : Int) ^ (H.longBits - 2) ≤ n) && decide (n < (2 : Int) ^ (H.longBits - 2))

/-- Ruby's `TYPE(val)`. -/
def TYPE (H : Host) : VALUE → ruby_value_type
  | .Qnil => .T_NIL
  | .Qtrue => .T_TRUE
  | .Qfalse => .T_FALSE
  | .integer n => if FIXABLE H n then .T_FIXNUM else .T_BIGNUM
  | .float _ => .T_FLOAT
  | .symbol _ => .T_SYMBOL
  | .heap k _ => k.toType
  | .data _ _ => .T_DATA

/-- The casts `RSTRING(val)`, `RSTRUCT(val)`, `RARRAY(val)`, `RHASH(val)`,
`RCLASS(val)`, `ROBJECT(val)` and `RDATA(val)`: each reinterprets the word
held by `val` as a pointer.  Only heap objects reach them in `Val2GV`. -/
def RBASIC_ptr : VALUE → Nat
  | .heap _ addr => addr
  | .data addr _ => addr
  | _ => 0

deriving instance DecidableEq for Except

/-- How a call can end without a result: a Ruby exception raised with
`rb_raise`, or a fault of the process (a null pointer is dereferenced). -/
inductive RbError where
  | rb_eArgError (msg : String)
  | rb_eTypeError (msg : String)
  | rb_eRangeError (msg : String)
  | fault (what : String)
deriving DecidableEq, Repr

/-- The exceptions the spec calls argument-type errors: raised by `rb_raise`
because a host value does not fit the native category. -/
def RbError.isRaise : RbError → Bool
  | .fault _ => false
  | _ => true

/-- Conversion of an integer to a C `long` of `w` bits (two's complement
wrap-around). -/
def toSigned (w : Nat) (x : Int) : Int :=
  let m := x % (2 : Int) ^ w
  if m < (2 : Int) ^ (w - 1) then m else m - (2 : Int) ^ w

/-- Whether `n` is representable as a C `long`. -/
def inLongRange (H : Host) (n : Int) : Prop :=
  -(2 : Int) ^ (H.longBits - 1) ≤ n ∧ n < (2 : Int) ^ (H.longBits - 1)

instance (H : Host) (n : Int) : Decidable (inLongRange H n) := by
  unfold inLongRange; infer_instance

/-- Modelled from the spec: `NUM2DBL` is a macro of the Ruby C API, not of
`src/`.  Section 4.3: Float32/Float64 accept "any numeric host value" and
"coerce to the corresponding floating representation"; any other value is
rejected with an argument-type error. -/
def NUM2DBL (H : Host) : VALUE → Except RbError Double
  | .float d => .ok d
  | .integer n => .ok (H.long_to_double n)
  | _ => .error (.rb_eTypeError "can't convert into Float")

/-- Modelled from the spec: `NUM2LONG` is a macro of the Ruby C API, not of
`src/`.  Section 4.3: a numeric is coerced "to a signed integer whose bit
width equals the native machine word size"; any other value is rejected with
an argument-type error.  A numeric that does not fit a `long` is rejected by
Ruby with a range error. -/
def NUM2LONG (H : Host) : VALUE → Except RbError Int
  | .integer n =>
      if inLongRange H n then .ok n
      else .error (.rb_eRangeError "bignum too big to convert into long")
  | .float d =>
      match H.double_to_long d with
      | some n => if inLongRange H n then .ok n
                  else .error (.rb_eRangeError "float out of range of integer")
      | none => .error (.rb_eRangeError "float out of range of integer")
  | _ => .error (.rb_eTypeError "can't convert into Integer")

/-- The Ruby C API `rb_float_new`: a host Float holding `d`. -/
def rb_float_new (d : Double) : VALUE := .float d

/-- The Ruby C API `INT2NUM` of the Ruby 1.8/1.9.0 this extension is written
for (`rb_int2inum(long)`): the argument is converted to a `long` and becomes
the host Integer with that value. -/
def INT2NUM (H : Host) (v : Int) : VALUE := .integer (toSigned H.longBits v)

/-- The Ruby C API `LONG2NUM`: the argument is converted to a `long` and
becomes the host Integer with that value. -/
def LONG2NUM (H : Host) (v : Int) : VALUE := .integer (toSigned H.longBits v)

/-! ## LLVM's `APInt` and `GenericValue` -/

/-- LLVM's `APInt`: a bit width and the value of the bits as an unsigned
number. -/
structure APInt where
  BitWidth : Nat
  VAL : Nat
deriving DecidableEq, Repr

/-- The constructor `APInt(numBits, val, isSigned)`.  `val` is passed as a
`uint64_t`; it is truncated to `numBits`, or extended (by sign when
`isSigned`) when `numBits` exceeds 64. -/
def APInt.ctor (numBits : Nat) (val : Int) (isSigned : Bool) : APInt :=
  let u : Int := val % (2 : Int) ^ 64
  let x : Int := if isSigned && decide ((2 : Int) ^ 63 ≤ u) then u - (2 : Int) ^ 64 else u
  ⟨numBits, (x % (2 : Int) ^ numBits).toNat⟩

/-- The assignment `APInt::operator=(uint64_t RHS)`: the width is kept and
the bits of `RHS` beyond it are dropped. -/
def APInt.assign (a : APInt) (RHS : Nat) : APInt :=
  ⟨a.BitWidth, (RHS % 2 ^ 64) % 2 ^ a.BitWidth⟩

/-- The accessor `APInt::getZExtValue()`: the value as a `uint64_t`. -/
def APInt.getZExtValue (a : APInt) : Nat := a.VAL % 2 ^ 64

/-- The accessor `APInt::getSExtValue()`: the value as an `int64_t`, sign
extended from bit `BitWidth - 1`. -/
def APInt.getSExtValue (a : APInt) : Int :=
  if a.BitWidth ≤ 64 then toSigned a.BitWidth (a.VAL : Int)
  else toSigned 64 (a.VAL : Int)

/-- LLVM's `GenericValue` (`llvm/ExecutionEngine/GenericValue.h`), as far as
this code touches it.  In the C++ declaration `DoubleVal`, `FloatVal` and
`PointerVal` are members of one anonymous union, and `IntVal` is a separate
`APInt` member that lies outside the union.  No path here reads a union
member other than the one it wrote, so the three are kept as plain fields. -/
structure GenericValue where
  DoubleVal : Double
  FloatVal : Single
  PointerVal : Nat
  IntVal : APInt
deriving DecidableEq, Repr

/-- The default constructor `GenericValue() : DoubleVal(0.0), IntVal(1,0)`:
what the declaration `GenericValue gv;` yields. -/
def GenericValue.new : GenericValue :=
  { DoubleVal := ⟨0⟩, FloatVal := ⟨0⟩, PointerVal := 0, IntVal := APInt.ctor 1 0 false }

/-- An LLVM `ExecutionEngine`: the module it was created for and its
`runFunction`, which belongs to LLVM and is left arbitrary. -/
structure ExecutionEngine where
  module : Option Module
  runFunction : Function → List GenericValue → GenericValue

/-! ## `Val2GV` and `Gv2Val` (llvm_module.cpp, lines 227-294) -/

/-- The function `Val2GV(val, targetType)`.  The line the `VoidTyID` case
writes to standard output is not part of the result. -/
def Val2GV (H : Host) (val : VALUE) (targetType : LType) : Except RbError GenericValue :=
  let gv : GenericValue := GenericValue.new
  match targetType.getTypeID with
  | .VoidTyID => .ok gv
  | .FloatTyID =>
      match NUM2DBL H val with
      | .ok d => .ok { gv with FloatVal := H.double_to_float d }
      | .error e => .error e
  | .DoubleTyID =>
      match NUM2DBL H val with
      | .ok d => .ok { gv with DoubleVal := d }
      | .error e => .error e
  | .IntegerTyID =>
      if TYPE H val ≠ .T_TRUE ∧ TYPE H val ≠ .T_FALSE then
        if TYPE H val ≠ .T_NIL then
          match NUM2LONG H val with
          | .ok n => .ok { gv with IntVal := APInt.ctor (H.sizeof_long * 8) n true }
          | .error e => .error e
        else
          .ok { gv with IntVal := APInt.ctor (H.sizeof_long * 8) 0 false }
      else
        .ok { gv with IntVal := gv.IntVal.assign (if TYPE H val = .T_TRUE then 1 else 0) }
  | .PointerTyID =>
      if TYPE H val = .T_STRING then .ok { gv with PointerVal := RBASIC_ptr val }
      else if TYPE H val = .T_STRUCT then .ok { gv with PointerVal := RBASIC_ptr val }
      else if TYPE H val = .T_ARRAY then .ok { gv with PointerVal := RBASIC_ptr val }
      else if TYPE H val = .T_HASH then .ok { gv with PointerVal := RBASIC_ptr val }
      else if TYPE H val = .T_CLASS then .ok { gv with PointerVal := RBASIC_ptr val }
      else if TYPE H val = .T_OBJECT then .ok { gv with PointerVal := RBASIC_ptr val }
      else if TYPE H val = .T_DATA then .ok { gv with PointerVal := RBASIC_ptr val }
      else if TYPE H val = .T_NIL then .ok { gv with PointerVal := 0 }
      else .error (.rb_eArgError
        "Can't convert pointer into GenericValue. That type is not supported.")
  | _ => .error (.rb_eArgError "Can't convert VALUE into GenericValue")

/-- The function `Gv2Val(gv, targetType)`. -/
def Gv2Val (H : Host) (gv : GenericValue) (targetType : LType) : VALUE :=
  if targetType.getTypeID = .FloatTyID then
    rb_float_new (H.float_to_double gv.FloatVal)
  else if targetType.getTypeID = .DoubleTyID then
    rb_float_new gv.DoubleVal
  else if targetType.getTypeID = .IntegerTyID then
    INT2NUM H gv.IntVal.getSExtValue
  else if targetType.getTypeID = .PointerTyID then
    LONG2NUM H (gv.IntVal.getZExtValue : Int)
  else
    LONG2NUM H (-1)

/-! ## Wrapping and unwrapping native objects -/

/-- The function `llvm_function_wrap(f)` (llvm_function.cpp):
`Data_Wrap_Struct(cLLVMFunction, NULL, NULL, f)`.  The address of the new
host object is chosen by the allocator and is taken as an argument. -/
def llvm_function_wrap (addr : Nat) (f : Option Function) : VALUE :=
  .data addr (.cLLVMFunction f)

/-- The three classes `CHECK_TYPE` is used with in `src/`. -/
inductive RClass where
  | cLLVMModule | cLLVMFunction | cLLVMFunctionType
deriving DecidableEq, Repr

/-- Ruby's `rb_obj_is_kind_of(val, klass)` for the classes of this
extension. -/
def rb_obj_is_kind_of : VALUE → RClass → Bool
  | .data _ (.cLLVMModule _), .cLLVMModule => true
  | .data _ (.cLLVMFunction _), .cLLVMFunction => true
  | .data _ (.cLLVMFunctionType _), .cLLVMFunctionType => true
  | _, _ => false

/-- Modelled from the spec: `CHECK_TYPE` is a macro of `llvmruby.h`, which is
not under `src/`.  The spec's binder and invoker take a Module and a Function;
the macro is taken to raise a type error unless the value is an instance of
the class. -/
def CHECK_TYPE (val : VALUE) (klass : RClass) : Except RbError Unit :=
  if rb_obj_is_kind_of val klass then .ok ()
  else .error (.rb_eTypeError "wrong argument type")

/-- Modelled from the spec: `LLVM_FUNCTION` is a macro of `llvmruby.h`, which
is not under `src/`: the `Function*` a wrapper holds as its `DATA_PTR`. -/
def LLVM_FUNCTION : VALUE → Option Function
  | .data _ (.cLLVMFunction f) => f
  | _ => none

/-- Modelled from the spec: `LLVM_MODULE` is a macro of `llvmruby.h`, which
is not under `src/`: the `Module*` a wrapper holds as its `DATA_PTR`. -/
def LLVM_MODULE : VALUE → Option Module
  | .data _ (.cLLVMModule m) => m
  | _ => none

/-! ## The invoker (llvm_module.cpp, lines 296-327) -/

/-- The text `sprintf` writes into `errorMessage`. -/
def arityMessage (expected found : Nat) : String :=
  "Function expects " ++ toString expected ++ " arguments, but found: " ++ toString found

/-- The `for` loop of the invoker: it walks the declared parameters, reads
`argv[argvIndex]`, marshals it by the parameter's type and pushes the result
on `arg_values`. -/
def marshalLoop (H : Host) (argv : List VALUE) :
    List Argument → List GenericValue → Nat → Except RbError (List GenericValue)
  | [], arg_values, _ => .ok arg_values
  | a :: iter, arg_values, argvIndex =>
      match argv[argvIndex]? with
      | none => .error (.fault "argv read past its end")
      | some rb_argument =>
          match Val2GV H rb_argument a.getType with
          | .ok arg => marshalLoop H argv iter (arg_values ++ [arg]) (argvIndex + 1)
          | .error e => .error e

/-- The function `llvm_execution_engine_run_function_auto_args(argc, argv,
klass)`, with `argc = argv.length` and the global `EE` passed in. -/
def llvm_execution_engine_run_function_auto_args (H : Host) (EE : Option ExecutionEngine)
    (argv : List VALUE) (_klass : VALUE) : Except RbError VALUE :=
  let argc := argv.length
  match argv with
  | [] => .error (.rb_eArgError "Expected at least one argument - function name")
  | argv0 :: _ =>
    match CHECK_TYPE argv0 .cLLVMFunction with
    | .error e => .error e
    | .ok _ =>
      match LLVM_FUNCTION argv0 with
      | none => .error (.fault "null Function dereferenced")
      | some func =>
        let nativeArguments := func.getArgumentList
        if argc - 1 ≠ nativeArguments.length then
          .error (.rb_eArgError (arityMessage nativeArguments.length (argc - 1)))
        else
          match marshalLoop H argv nativeArguments [] 1 with
          | .error e => .error e
          | .ok arg_values =>
            match EE with
            | none => .error (.fault "null ExecutionEngine dereferenced")
            | some engine =>
              let v := engine.runFunction func arg_values
              let retType := func.getReturnType
              .ok (Gv2Val H v retType)

/-- Step 3 of the invocation as the spec words it (section 4.4): "for each
parameter position, call hostToNative(args[i], declaredType(parameter[i]))",
in order, stopping at the first failure. -/
def hostToNativeAll (H : Host) : List VALUE → List Argument → Except RbError (List GenericValue)
  | a :: args, p :: params =>
      match Val2GV H a p.getType with
      | .error e => .error e
      | .ok g =>
          match hostToNativeAll H args params with
          | .error e => .error e
          | .ok gs => .ok (g :: gs)
  | _, _ => .ok []

/-- The invocation as the spec words it (section 4.4, steps 3 to 5): marshal
each argument by the declared type at its position, call through the engine,
and convert the result by the declared return type. -/
def invokeSpec (H : Host) (engine : ExecutionEngine) (f : Function) (args : List VALUE) :
    Except RbError VALUE :=
  match hostToNativeAll H args f.getArgumentList with
  | .ok natives => .ok (Gv2Val H (engine.runFunction f natives) f.getReturnType)
  | .error e => .error e

/-! ## The engine binder (llvm_module.cpp, lines 122-149) -/

/-- What `EngineBuilder(m).setErrorStr(&errStr).setEngineKind(JIT).create()`
does belongs to LLVM: it yields an engine or a null pointer, and an error
string. -/
abbrev EngineBuilder := Option Module → Option ExecutionEngine × String

/-- The state the binder works on: the file-level `static ExecutionEngine *EE`
and the lines written to `cerr`.  The field `constructions` is bookkeeping
that is not in the code: it counts how often `create()` has been run. -/
structure Process where
  EE : Option ExecutionEngine
  cerr : List String
  constructions : Nat

/-- The state at program start: `EE = NULL`. -/
def Process.start : Process := { EE := none, cerr := [], constructions := 0 }

/-- The function `llvm_execution_engine_get(klass, module)`.  The builder the
call would run is passed in, so that construction can succeed on one call and
fail on another.  `InitializeNativeTarget()`, `LLVMLinkInJIT()` and the
library loading under `__CYGWIN__` do not touch `EE` and are left out. -/
def llvm_execution_engine_get (create : EngineBuilder) (p : Process) (_klass module : VALUE) :
    Except RbError VALUE × Process :=
  match CHECK_TYPE module .cLLVMModule with
  | .error e => (.error e, p)
  | .ok _ =>
    let m := LLVM_MODULE module
    match p.EE with
    | none =>
        let r := create m
        let errStr := r.2
        (.ok .Qtrue,
          { EE := r.1,
            cerr := if errStr ≠ "" then
                      p.cerr ++ ["ExecutionEngine.get - Error: " ++ errStr]
                    else p.cerr,
            constructions := p.constructions + 1 })
    | some _ => (.ok .Qtrue, p)

/-- One call to the binder: the builder it would use, and its arguments. -/
structure BinderCall where
  create : EngineBuilder
  klass : VALUE
  module : VALUE

/-- A sequence of binder calls, run one after the other; the results of the
calls are collected in order. -/
def runCalls : Process → List BinderCall → List (Except RbError VALUE) × Process
  | p, [] => ([], p)
  | p, c :: cs =>
      let r := llvm_execution_engine_get c.create p c.klass c.module
      let rest := runCalls r.2 cs
      (r.1 :: rest.1, rest.2)

/-! ## The table of accepted inputs (spec, section 4.3) -/

/-- The seven host categories `Val2GV` passes through as a pointer. -/
def containerTypes : List ruby_value_type :=
  [.T_STRING, .T_STRUCT, .T_ARRAY, .T_HASH, .T_CLASS, .T_OBJECT, .T_DATA]

/-- The numeric host values: Integer and Float. -/
def isNumeric : VALUE → Bool
  | .integer _ => true
  | .float _ => true
  | _ => false

/-- The five categories the spec's `NativeTypeCategory` lists. -/
def knownCategories : List TypeID :=
  [.VoidTyID, .FloatTyID, .DoubleTyID, .IntegerTyID, .PointerTyID]

/-- The spec's table of accepted inputs of `hostToNative`: a numeric for
Float32 and Float64; true, false, nil or a numeric for Integer; nil or one of
the seven container categories for Pointer; nothing else. -/
def accepted (H : Host) (val : VALUE) : TypeID → Bool
  | .FloatTyID => isNumeric val
  | .DoubleTyID => isNumeric val
  | .IntegerTyID =>
      decide (val = .Qtrue) || decide (val = .Qfalse) || decide (val = .Qnil) || isNumeric val
  | .PointerTyID => decide (TYPE H val = .T_NIL) || decide (TYPE H val ∈ containerTypes)
  | _ => false

/-! ## Sample data -/

/-- A host with a 64-bit `long`.  Its number-format conversions are fixed
arbitrarily; the evaluations below that use this host do not reach them. -/
def lp64 : Host :=
  { sizeof_long := 8
    long_to_double := fun n => ⟨n.toNat⟩
    double_to_long := fun d => some (d.bits : Int)
    double_to_float := fun d => ⟨d.bits⟩
    float_to_double := fun f => ⟨f.bits⟩ }

/-- The type `i64`. -/
def i64 : LType := ⟨.IntegerTyID, 64⟩

/-- The type `i8*`. -/
def ptrTy : LType := ⟨.PointerTyID, 0⟩

/-- The type `double`. -/
def doubleTy : LType := ⟨.DoubleTyID, 0⟩

/-- The type `void`. -/
def voidTy : LType := ⟨.VoidTyID, 0⟩

/-- A function `i64 add(i64, i8*)`. -/
def sampleFn : Function :=
  { name := "add", getArgumentList := [⟨i64⟩, ⟨ptrTy⟩], getReturnType := i64 }

/-- An engine whose `runFunction` hands back its first argument. -/
def sampleEngine : ExecutionEngine :=
  { module := some ⟨"m"⟩
    runFunction := fun _ args => args.headD GenericValue.new }

/-- A builder that succeeds: the engine it makes is bound to the module it
was given. -/
def buildOk : EngineBuilder := fun m =>
  (some { module := m, runFunction := fun _ args => args.headD GenericValue.new }, "")

/-- A builder that fails: null engine and an error text. -/
def buildFail : EngineBuilder := fun _ => (none, "no JIT")

/-- A host object wrapping the module `m`. -/
def moduleM : VALUE := .data 4096 (.cLLVMModule (some ⟨"m"⟩))

/-- A host object wrapping another module. -/
def moduleN : VALUE := .data 8192 (.cLLVMModule (some ⟨"n"⟩))

/-! ## The marshalling loop -/

theorem marshalLoop_eq (H : Host) (argv : List VALUE) :
    ∀ (params : List Argument) (acc : List GenericValue) (i : Nat),
      params.length + i ≤ argv.length →
      marshalLoop H argv params acc i =
        match hostToNativeAll H (argv.drop i) params with
        | .ok gs => .ok (acc ++ gs)
        | .error e => .error e := by
  intro params
  induction params with
  | nil =>
      intro acc i _
      cases hd : argv.drop i <;> simp [marshalLoop, hostToNativeAll]
  | cons a rest ih =>
      intro acc i hlen
      have hi : i < argv.length := by
        simp only [List.length_cons] at hlen
        omega
      have hdrop : argv.drop i = argv[i] :: argv.drop (i + 1) := List.drop_eq_getElem_cons hi
      have hget : argv[i]? = some argv[i] := List.getElem?_eq_getElem hi
      rw [hdrop]
      simp only [marshalLoop, hget, hostToNativeAll]
      cases hv : Val2GV H argv[i] a.getType with
      | error e => rfl
      | ok g =>
          have hlen2 : rest.length + (i + 1) ≤ argv.length := by
            simp only [List.length_cons] at hlen
            omega
          simp only []
          rw [ih (acc ++ [g]) (i + 1) hlen2]
          cases hostToNativeAll H (List.drop (i + 1) argv) rest with
          | error e => rfl
          | ok gs => simp

theorem hostToNativeAll_ok_of_accepted (H : Host) :
    ∀ (args : List VALUE) (params : List Argument),
      (∀ p ∈ args.zip params, ∃ g, Val2GV H p.1 p.2.getType = .ok g) →
      ∃ gs, hostToNativeAll H args params = .ok gs := by
  intro args
  induction args with
  | nil => intro params _; exact ⟨[], by simp [hostToNativeAll]⟩
  | cons a rest ih =>
      intro params h
      cases params with
      | nil => exact ⟨[], by simp [hostToNativeAll]⟩
      | cons p ps =>
          obtain ⟨g, hg⟩ := h (a, p) (by simp)
          obtain ⟨gs, hgs⟩ := ih ps (fun q hq => h q (by simp [hq]))
          exact ⟨g :: gs, by simp [hostToNativeAll, hg, hgs]⟩

theorem hostToNativeAll_pointwise (H : Host) :
    ∀ (args : List VALUE) (params : List Argument) (gs : List GenericValue),
      args.length = params.length →
      (hostToNativeAll H args params = .ok gs ↔
        List.Forall₂ (fun (p : VALUE × Argument) g => Val2GV H p.1 p.2.getType = .ok g)
          (args.zip params) gs) := by
  intro args
  induction args with
  | nil =>
      intro params gs hlen
      cases params with
      | nil => simp [hostToNativeAll, eq_comm]
      | cons p ps => simp at hlen
  | cons a rest ih =>
      intro params gs hlen
      cases params with
      | nil => simp at hlen
      | cons p ps =>
          have hlen2 : rest.length = ps.length := by simpa using hlen
          simp only [hostToNativeAll, List.zip_cons_cons]
          cases hv : Val2GV H a p.getType with
          | error e =>
              constructor
              · intro h; cases h
              · intro h
                cases h with
                | cons h1 _ => simp [hv] at h1
          | ok g =>
              cases hr : hostToNativeAll H rest ps with
              | error e =>
                  constructor
                  · intro h; cases h
                  · intro h
                    cases h with
                    | cons h1 h2 =>
                        rename_i g2 gs2
                        have := (ih ps gs2 hlen2).2 h2
                        rw [hr] at this
                        cases this
              | ok gs0 =>
                  constructor
                  · intro h
                    simp only [Except.ok.injEq] at h
                    subst h
                    exact List.Forall₂.cons hv ((ih ps gs0 hlen2).1 hr)
                  · intro h
                    cases h with
                    | cons h1 h2 =>
                        rename_i g2 gs2
                        have e2 := (ih ps gs2 hlen2).2 h2
                        rw [hr] at e2
                        simp only [hv, Except.ok.injEq] at h1
                        simp only [Except.ok.injEq] at e2
                        subst h1; subst e2
                        rfl

theorem invoker_eq_spec (H : Host) (e : ExecutionEngine) (addr : Nat) (f : Function)
    (args : List VALUE) (klass : VALUE) (hlen : args.length = f.getArgumentList.length) :
    llvm_execution_engine_run_function_auto_args H (some e)
        (llvm_function_wrap addr (some f) :: args) klass = invokeSpec H e f args := by
  have hloop := marshalLoop_eq H (llvm_function_wrap addr (some f) :: args)
    f.getArgumentList [] 1 (by simp [hlen])
  simp only [llvm_execution_engine_run_function_auto_args, llvm_function_wrap, CHECK_TYPE,
    rb_obj_is_kind_of, LLVM_FUNCTION, invokeSpec]
  simp only [llvm_function_wrap] at hloop
  simp only [List.length_cons, Nat.add_sub_cancel, hlen, ne_eq, not_true_eq_false, if_false,
    if_true, hloop, List.drop_succ_cons, List.drop_zero, List.nil_append]
  cases hostToNativeAll H args f.getArgumentList <;> rfl

/-! ## The invoker: arity and marshalling -/

/-- C1: for a function with `n` declared parameters and `k` arguments, the
auto-args invoker raises an argument error whose text is "Function expects n
arguments, but found: k" whenever `k ≠ n` (whatever the engine state); when
`k = n`, an engine is bound and `Val2GV` accepts every argument for the type
of its parameter, the call returns a value. -/
theorem invoker_arity (H : Host) (EE : Option ExecutionEngine) (addr : Nat) (f : Function)
    (args : List VALUE) (klass : VALUE) :
    (args.length ≠ f.getArgumentList.length →
      llvm_execution_engine_run_function_auto_args H EE
          (llvm_function_wrap addr (some f) :: args) klass
        = .error (.rb_eArgError ("Function expects " ++ toString f.getArgumentList.length
            ++ " arguments, but found: " ++ toString args.length)))
    ∧ (args.length = f.getArgumentList.length → EE.isSome = true →
        (∀ p ∈ args.zip f.getArgumentList, ∃ g, Val2GV H p.1 p.2.getType = .ok g) →
        ∃ v, llvm_execution_engine_run_function_auto_args H EE
          (llvm_function_wrap addr (some f) :: args) klass = .ok v) := by
  constructor
  · intro hne
    simp [llvm_execution_engine_run_function_auto_args, llvm_function_wrap, CHECK_TYPE,
      rb_obj_is_kind_of, LLVM_FUNCTION, arityMessage, hne]
  · intro hlen hEE hacc
    cases EE with
    | none => simp at hEE
    | some e =>
        obtain ⟨gs, hgs⟩ := hostToNativeAll_ok_of_accepted H args f.getArgumentList hacc
        refine ⟨Gv2Val H (e.runFunction f gs) f.getReturnType, ?_⟩
        rw [invoker_eq_spec H e addr f args klass hlen]
        simp [invokeSpec, hgs]

/-- Witness for C1: `sampleFn` declares two parameters; one argument and three
arguments are refused with the arity text, two accepted arguments go
through. -/
theorem invoker_arity_witness :
    llvm_execution_engine_run_function_auto_args lp64 none
        (llvm_function_wrap 16 (some sampleFn) :: [.integer 7]) .Qnil
      = .error (.rb_eArgError "Function expects 2 arguments, but found: 1")
    ∧ llvm_execution_engine_run_function_auto_args lp64 (some sampleEngine)
        (llvm_function_wrap 16 (some sampleFn) :: [.integer 7, .Qnil, .Qtrue]) .Qnil
      = .error (.rb_eArgError "Function expects 2 arguments, but found: 3")
    ∧ ∃ v, llvm_execution_engine_run_function_auto_args lp64 (some sampleEngine)
        (llvm_function_wrap 16 (some sampleFn) :: [.integer 7, .Qnil]) .Qnil = .ok v :=
  ⟨(invoker_arity lp64 none 16 sampleFn [.integer 7] .Qnil).1 (by decide),
   (invoker_arity lp64 (some sampleEngine) 16 sampleFn [.integer 7, .Qnil, .Qtrue] .Qnil).1
     (by decide),
   (invoker_arity lp64 (some sampleEngine) 16 sampleFn [.integer 7, .Qnil] .Qnil).2
     (by decide) rfl
     (by
       intro p hp
       simp only [sampleFn, List.zip_cons_cons, List.zip_nil_right, List.mem_cons,
         List.mem_singleton, List.not_mem_nil, or_false] at hp
       rcases hp with rfl | rfl
       · exact ⟨{ GenericValue.new with IntVal := ⟨64, 7⟩ }, by decide⟩
       · exact ⟨{ GenericValue.new with PointerVal := 0 }, by decide⟩)⟩

/-- C2: with an engine bound and as many arguments as declared parameters,
the auto-args invoker does what the spec's steps 3 to 5 say: it fails with the
error of the first argument `Val2GV` rejects, and otherwise returns
`Gv2Val (runFunction f natives) returnType`, where the i-th native argument is
`Val2GV` of the i-th host argument at the declared type of the i-th
parameter. -/
theorem invoker_marshals_by_declared_type (H : Host) (e : ExecutionEngine) (addr : Nat)
    (f : Function) (args : List VALUE) (klass : VALUE)
    (hlen : args.length = f.getArgumentList.length) :
    llvm_execution_engine_run_function_auto_args H (some e)
        (llvm_function_wrap addr (some f) :: args) klass = invokeSpec H e f args
    ∧ ∀ natives : List GenericValue,
        List.Forall₂ (fun (p : VALUE × Argument) g => Val2GV H p.1 p.2.getType = .ok g)
          (args.zip f.getArgumentList) natives →
        llvm_execution_engine_run_function_auto_args H (some e)
          (llvm_function_wrap addr (some f) :: args) klass
          = .ok (Gv2Val H (e.runFunction f natives) f.getReturnType) := by
  refine ⟨invoker_eq_spec H e addr f args klass hlen, ?_⟩
  intro natives hnat
  rw [invoker_eq_spec H e addr f args klass hlen]
  have h := (hostToNativeAll_pointwise H args f.getArgumentList natives hlen).2 hnat
  simp [invokeSpec, h]

/-- Witness for C2: `sampleFn` called with the integer 7 and `nil`; the engine
hands back its first native argument, which is read as an integer. -/
theorem invoker_marshals_by_declared_type_witness :
    [VALUE.integer 7, VALUE.Qnil].length = sampleFn.getArgumentList.length
    ∧ llvm_execution_engine_run_function_auto_args lp64 (some sampleEngine)
        (llvm_function_wrap 16 (some sampleFn) :: [.integer 7, .Qnil]) .Qnil
      = invokeSpec lp64 sampleEngine sampleFn [.integer 7, .Qnil]
    ∧ llvm_execution_engine_run_function_auto_args lp64 (some sampleEngine)
        (llvm_function_wrap 16 (some sampleFn) :: [.integer 7, .Qnil]) .Qnil
      = .ok (Gv2Val lp64 (sampleEngine.runFunction sampleFn
          [{ GenericValue.new with IntVal := ⟨64, 7⟩ },
           { GenericValue.new with PointerVal := 0 }]) sampleFn.getReturnType)
    ∧ invokeSpec lp64 sampleEngine sampleFn [.integer 7, .Qnil] = .ok (.integer 7) :=
  ⟨by decide,
   (invoker_marshals_by_declared_type lp64 sampleEngine 16 sampleFn [.integer 7, .Qnil] .Qnil
     (by decide)).1,
   (invoker_marshals_by_declared_type lp64 sampleEngine 16 sampleFn [.integer 7, .Qnil] .Qnil
     (by decide)).2 _
     (List.Forall₂.cons (by decide) (List.Forall₂.cons (by decide) List.Forall₂.nil)),
   by decide⟩

/-! ## `Val2GV` and `Gv2Val` case by case -/

/-- C3: at an integer target type `Val2GV` succeeds on `true`, `false` and
`nil`; the native integer it stores has value 1 for `true` (in the one-bit
`APInt` of a fresh `GenericValue`), 0 for `false`, and 0 for `nil` (in an
`APInt` as wide as a `long`). -/
theorem Val2GV_integer_bool_nil (H : Host) (bw : Nat) :
    Val2GV H .Qtrue ⟨.IntegerTyID, bw⟩ = .ok { GenericValue.new with IntVal := ⟨1, 1⟩ }
    ∧ Val2GV H .Qfalse ⟨.IntegerTyID, bw⟩ = .ok { GenericValue.new with IntVal := ⟨1, 0⟩ }
    ∧ Val2GV H .Qnil ⟨.IntegerTyID, bw⟩
        = .ok { GenericValue.new with IntVal := ⟨H.sizeof_long * 8, 0⟩ }
    ∧ (⟨1, 1⟩ : APInt).getZExtValue = 1
    ∧ (⟨1, 0⟩ : APInt).getZExtValue = 0
    ∧ (⟨H.sizeof_long * 8, 0⟩ : APInt).getZExtValue = 0 := by
  refine ⟨?_, ?_, ?_, ?_, ?_, ?_⟩
  · simp [Val2GV, TYPE, GenericValue.new, APInt.assign, APInt.ctor]
  · simp [Val2GV, TYPE, GenericValue.new, APInt.assign, APInt.ctor]
  · simp [Val2GV, TYPE, GenericValue.new, APInt.ctor]
  · simp [APInt.getZExtValue]
  · simp [APInt.getZExtValue]
  · simp [APInt.getZExtValue]

theorem TYPE_nil_iff (H : Host) (v : VALUE) : TYPE H v = .T_NIL ↔ v = .Qnil := by
  cases v with
  | heap k addr => cases k <;> simp [TYPE, HeapKind.toType]
  | integer n => by_cases hf : FIXABLE H n = true <;> simp [TYPE, hf]
  | _ => simp [TYPE]

theorem Val2GV_pointer_cases (H : Host) (bw : Nat) (val : VALUE) :
    Val2GV H val ⟨.PointerTyID, bw⟩ =
      (if TYPE H val = .T_NIL then .ok { GenericValue.new with PointerVal := 0 }
       else if TYPE H val ∈ containerTypes then
         .ok { GenericValue.new with PointerVal := RBASIC_ptr val }
       else .error (.rb_eArgError
         "Can't convert pointer into GenericValue. That type is not supported.")) := by
  cases val with
  | heap k addr => cases k <;> simp [Val2GV, TYPE, HeapKind.toType, containerTypes, RBASIC_ptr]
  | integer n =>
      by_cases hf : FIXABLE H n = true <;>
        simp [Val2GV, TYPE, containerTypes, hf]
  | _ => simp [Val2GV, TYPE, containerTypes, RBASIC_ptr]

/-- C4: at a pointer target type `Val2GV` yields the null address for `nil`
(the only value tagged `T_NIL`), the raw address of the object for a value of
one of the seven container categories (string, struct, array, hash, class,
object, data), and for a value of any other category raises the argument
error "Can't convert pointer into GenericValue. That type is not supported."
and yields no native value. -/
theorem Val2GV_pointer (H : Host) (bw : Nat) (val : VALUE) :
    Val2GV H val ⟨.PointerTyID, bw⟩ =
      (if TYPE H val = .T_NIL then .ok { GenericValue.new with PointerVal := 0 }
       else if TYPE H val ∈ containerTypes then
         .ok { GenericValue.new with PointerVal := RBASIC_ptr val }
       else .error (.rb_eArgError
         "Can't convert pointer into GenericValue. That type is not supported."))
    ∧ (∀ k addr, RBASIC_ptr (.heap k addr) = addr)
    ∧ (∀ addr w, RBASIC_ptr (.data addr w) = addr)
    ∧ (∀ v, TYPE H v = .T_NIL ↔ v = .Qnil) :=
  ⟨Val2GV_pointer_cases H bw val, fun _ _ => rfl, fun _ _ => rfl, TYPE_nil_iff H⟩

/-- C5: a host Float `x` marshalled at the type `double` lands unchanged in
`DoubleVal`, and `Gv2Val` at the type `double` reads it back as the host
Float `x`. -/
theorem double_round_trip (H : Host) (bw bw2 : Nat) (x : Double) :
    ∃ gv, Val2GV H (.float x) ⟨.DoubleTyID, bw⟩ = .ok gv
      ∧ gv.DoubleVal = x
      ∧ Gv2Val H gv ⟨.DoubleTyID, bw2⟩ = .float x := by
  refine ⟨{ GenericValue.new with DoubleVal := x }, ?_, rfl, ?_⟩
  · simp [Val2GV, NUM2DBL]
  · simp [Gv2Val, rb_float_new]

/-! ## The engine binder -/

theorem get_of_bound (create : EngineBuilder) (p : Process) (klass module : VALUE)
    (e : ExecutionEngine) (h : p.EE = some e) :
    (llvm_execution_engine_get create p klass module).2 = p := by
  unfold llvm_execution_engine_get
  cases CHECK_TYPE module .cLLVMModule <;> simp [h]

theorem runCalls_of_bound (e : ExecutionEngine) :
    ∀ (calls : List BinderCall) (p : Process), p.EE = some e → (runCalls p calls).2 = p := by
  intro calls
  induction calls with
  | nil => intro p _; rfl
  | cons c cs ih =>
      intro p h
      have h1 := get_of_bound c.create p c.klass c.module e h
      simp only [runCalls, h1]
      exact ih p h

/-- C6: once a call to the binder has left an engine `e` bound, any further
sequence of binder calls, with any modules and any builders, leaves the whole
state as it was: `EE` is still `e`, nothing was constructed and nothing was
logged. -/
theorem first_caller_wins (create : EngineBuilder) (p : Process) (klass module : VALUE)
    (e : ExecutionEngine)
    (hbound : (llvm_execution_engine_get create p klass module).2.EE = some e)
    (calls : List BinderCall) :
    (runCalls (llvm_execution_engine_get create p klass module).2 calls).2
        = (llvm_execution_engine_get create p klass module).2
    ∧ (runCalls (llvm_execution_engine_get create p klass module).2 calls).2.EE = some e := by
  have h := runCalls_of_bound e calls _ hbound
  exact ⟨h, by rw [h]; exact hbound⟩

/-- Witness for C6: the first call binds an engine to module `m`; calls with
`m` again, with another module, and with a builder that would fail leave that
engine in place. -/
theorem first_caller_wins_witness :
    (llvm_execution_engine_get buildOk Process.start .Qnil moduleM).2.EE = some sampleEngine
    ∧ (runCalls (llvm_execution_engine_get buildOk Process.start .Qnil moduleM).2
        [⟨buildOk, .Qnil, moduleM⟩, ⟨buildOk, .Qnil, moduleN⟩, ⟨buildFail, .Qnil, moduleN⟩]).2.EE
      = some sampleEngine :=
  ⟨rfl, (first_caller_wins buildOk Process.start .Qnil moduleM sampleEngine rfl
    [⟨buildOk, .Qnil, moduleM⟩, ⟨buildOk, .Qnil, moduleN⟩, ⟨buildFail, .Qnil, moduleN⟩]).2⟩

theorem get_of_module (create : EngineBuilder) (p : Process) (klass module : VALUE)
    (hty : rb_obj_is_kind_of module .cLLVMModule = true) :
    (llvm_execution_engine_get create p klass module).1 = .ok .Qtrue := by
  unfold llvm_execution_engine_get
  simp only [CHECK_TYPE, hty, if_true]
  cases p.EE <;> rfl

theorem get_of_unbound (create : EngineBuilder) (p : Process) (klass module : VALUE)
    (hty : rb_obj_is_kind_of module .cLLVMModule = true) (h : p.EE = none) :
    (llvm_execution_engine_get create p klass module).2.EE = (create (LLVM_MODULE module)).1
    ∧ (llvm_execution_engine_get create p klass module).2.constructions
        = p.constructions + 1 := by
  unfold llvm_execution_engine_get
  simp [CHECK_TYPE, hty, h]

theorem runCalls_append (xs ys : List BinderCall) :
    ∀ p : Process, (runCalls p (xs ++ ys)).2 = (runCalls (runCalls p xs).2 ys).2 := by
  induction xs with
  | nil => intro p; rfl
  | cons c cs ih =>
      intro p
      simp only [List.cons_append, runCalls]
      exact ih _

theorem runCalls_typed (p : Process) (calls : List BinderCall)
    (hty : ∀ c ∈ calls, rb_obj_is_kind_of c.module .cLLVMModule = true) :
    (runCalls p calls).1 = List.replicate calls.length (.ok .Qtrue)
    ∧ (p.EE.isSome = true → (runCalls p calls).2 = p)
    ∧ (p.EE = none → (∀ c ∈ calls, (c.create (LLVM_MODULE c.module)).1 = none) →
        (runCalls p calls).2.EE = none
        ∧ (runCalls p calls).2.constructions = p.constructions + calls.length) := by
  induction calls generalizing p with
  | nil => simp [runCalls]
  | cons c cs ih =>
      have hc : rb_obj_is_kind_of c.module .cLLVMModule = true := hty c (by simp)
      have hcs : ∀ d ∈ cs, rb_obj_is_kind_of d.module .cLLVMModule = true :=
        fun d hd => hty d (by simp [hd])
      obtain ⟨ih1, _, ih3⟩ := ih (llvm_execution_engine_get c.create p c.klass c.module).2 hcs
      refine ⟨?_, ?_, ?_⟩
      · simp only [runCalls, List.length_cons, List.replicate_succ, ih1,
          get_of_module c.create p c.klass c.module hc]
      · intro hsome
        cases hp : p.EE with
        | none => simp [hp] at hsome
        | some e => exact runCalls_of_bound e (c :: cs) p hp
      · intro hnone hfail
        obtain ⟨hEE, hcnt⟩ := get_of_unbound c.create p c.klass c.module hc hnone
        have hfc : (c.create (LLVM_MODULE c.module)).1 = none := hfail c (by simp)
        have hnone2 : (llvm_execution_engine_get c.create p c.klass c.module).2.EE = none := by
          rw [hEE, hfc]
        obtain ⟨r1, r2⟩ := ih3 hnone2 (fun d hd => hfail d (by simp [hd]))
        simp only [runCalls, List.length_cons]
        refine ⟨r1, ?_⟩
        rw [r2, hcnt]
        omega

/-- C9, as amended: over every sequence of binder calls that are passed
modules, no call fails the caller; once an engine is bound no later call
constructs or changes the state; while no engine is bound every call
constructs again, so that after `k` failed constructions in a row the state is
still null and `create()` has been run `k` times; and the first construction
that succeeds binds the engine it made and is the last one: whatever calls
follow, `EE` is that engine and `create()` has been run once per failed call
before it plus once. -/
theorem binder_constructs_while_unbound (p : Process) (calls : List BinderCall)
    (hty : ∀ c ∈ calls, rb_obj_is_kind_of c.module .cLLVMModule = true) :
    (runCalls p calls).1 = List.replicate calls.length (.ok .Qtrue)
    ∧ (p.EE.isSome = true → (runCalls p calls).2 = p)
    ∧ (p.EE = none → (∀ c ∈ calls, (c.create (LLVM_MODULE c.module)).1 = none) →
        (runCalls p calls).2.EE = none
        ∧ (runCalls p calls).2.constructions = p.constructions + calls.length)
    ∧ (p.EE = none → ∀ (failed : List BinderCall) (c : BinderCall) (later : List BinderCall)
          (e : ExecutionEngine),
        calls = failed ++ c :: later →
        (∀ d ∈ failed, (d.create (LLVM_MODULE d.module)).1 = none) →
        (c.create (LLVM_MODULE c.module)).1 = some e →
        (runCalls p calls).2.EE = some e
        ∧ (runCalls p calls).2.constructions = p.constructions + failed.length + 1) := by
  obtain ⟨h1, h2, h3⟩ := runCalls_typed p calls hty
  refine ⟨h1, h2, h3, ?_⟩
  intro hnone failed c later e hsplit hfail hok
  subst hsplit
  have htyF : ∀ d ∈ failed, rb_obj_is_kind_of d.module .cLLVMModule = true :=
    fun d hd => hty d (by simp [hd])
  have hc : rb_obj_is_kind_of c.module .cLLVMModule = true := hty c (by simp)
  obtain ⟨fEE, fcnt⟩ := (runCalls_typed p failed htyF).2.2 hnone hfail
  obtain ⟨gEE, gcnt⟩ :=
    get_of_unbound c.create (runCalls p failed).2 c.klass c.module hc fEE
  have hbound :
      (llvm_execution_engine_get c.create (runCalls p failed).2 c.klass c.module).2.EE
        = some e := by rw [gEE, hok]
  have hrest := runCalls_of_bound e later _ hbound
  have hstate : (runCalls p (failed ++ c :: later)).2
      = (llvm_execution_engine_get c.create (runCalls p failed).2 c.klass c.module).2 := by
    rw [runCalls_append]
    simp only [runCalls]
    exact hrest
  rw [hstate]
  exact ⟨hbound, by rw [gcnt, fcnt]⟩

/-- Witness for C9 as amended: two calls whose constructions fail both return
true, leave the state null and run `create()` twice; from a bound state the
same two calls change nothing; and when a failed call is followed by one that
succeeds for module `n` and by a further call for module `m`, the engine made
for `n` stays bound and `create()` has been run twice. -/
theorem binder_constructs_while_unbound_witness :
    (runCalls Process.start [⟨buildFail, .Qnil, moduleM⟩, ⟨buildFail, .Qnil, moduleN⟩]).1
      = [.ok .Qtrue, .ok .Qtrue]
    ∧ (runCalls Process.start
        [⟨buildFail, .Qnil, moduleM⟩, ⟨buildFail, .Qnil, moduleN⟩]).2.EE = none
    ∧ (runCalls Process.start
        [⟨buildFail, .Qnil, moduleM⟩, ⟨buildFail, .Qnil, moduleN⟩]).2.constructions = 0 + 2
    ∧ (runCalls { EE := some sampleEngine, cerr := [], constructions := 1 }
        [⟨buildFail, .Qnil, moduleM⟩, ⟨buildFail, .Qnil, moduleN⟩]).2
      = { EE := some sampleEngine, cerr := [], constructions := 1 }
    ∧ (runCalls Process.start
        ([⟨buildFail, .Qnil, moduleM⟩] ++ ⟨buildOk, .Qnil, moduleN⟩
          :: [⟨buildOk, .Qnil, moduleM⟩])).2.EE
      = some { module := some ⟨"n"⟩, runFunction := fun _ args => args.headD GenericValue.new }
    ∧ (runCalls Process.start
        ([⟨buildFail, .Qnil, moduleM⟩] ++ ⟨buildOk, .Qnil, moduleN⟩
          :: [⟨buildOk, .Qnil, moduleM⟩])).2.constructions = 0 + 1 + 1 :=
  ⟨(binder_constructs_while_unbound Process.start
      [⟨buildFail, .Qnil, moduleM⟩, ⟨buildFail, .Qnil, moduleN⟩] (by decide)).1,
   ((binder_constructs_while_unbound Process.start
      [⟨buildFail, .Qnil, moduleM⟩, ⟨buildFail, .Qnil, moduleN⟩] (by decide)).2.2.1
      rfl (by
        intro c hc
        simp only [List.mem_cons, List.mem_singleton, List.not_mem_nil, or_false] at hc
        rcases hc with rfl | rfl <;> rfl)).1,
   ((binder_constructs_while_unbound Process.start
      [⟨buildFail, .Qnil, moduleM⟩, ⟨buildFail, .Qnil, moduleN⟩] (by decide)).2.2.1
      rfl (by
        intro c hc
        simp only [List.mem_cons, List.mem_singleton, List.not_mem_nil, or_false] at hc
        rcases hc with rfl | rfl <;> rfl)).2,
   (binder_constructs_while_unbound { EE := some sampleEngine, cerr := [], constructions := 1 }
      [⟨buildFail, .Qnil, moduleM⟩, ⟨buildFail, .Qnil, moduleN⟩] (by decide)).2.1 rfl,
   ((binder_constructs_while_unbound Process.start
      ([⟨buildFail, .Qnil, moduleM⟩] ++ ⟨buildOk, .Qnil, moduleN⟩
        :: [⟨buildOk, .Qnil, moduleM⟩]) (by decide)).2.2.2 rfl
      [⟨buildFail, .Qnil, moduleM⟩] ⟨buildOk, .Qnil, moduleN⟩ [⟨buildOk, .Qnil, moduleM⟩]
      { module := some ⟨"n"⟩, runFunction := fun _ args => args.headD GenericValue.new }
      rfl (by
        intro d hd
        simp only [List.mem_singleton] at hd
        subst hd
        rfl) rfl).1,
   ((binder_constructs_while_unbound Process.start
      ([⟨buildFail, .Qnil, moduleM⟩] ++ ⟨buildOk, .Qnil, moduleN⟩
        :: [⟨buildOk, .Qnil, moduleM⟩]) (by decide)).2.2.2 rfl
      [⟨buildFail, .Qnil, moduleM⟩] ⟨buildOk, .Qnil, moduleN⟩ [⟨buildOk, .Qnil, moduleM⟩]
      { module := some ⟨"n"⟩, runFunction := fun _ args => args.headD GenericValue.new }
      rfl (by
        intro d hd
        simp only [List.mem_singleton] at hd
        subst hd
        rfl) rfl).2⟩

/-- C9 fails as stated: after a construction that failed, the next binder
call constructs again; here that second construction succeeds, so the null
state does not persist and `create()` has been run twice. -/
theorem binder_constructs_again_after_failure :
    (runCalls Process.start [⟨buildFail, .Qnil, moduleM⟩]).2.EE.isNone = true
    ∧ (runCalls Process.start
        [⟨buildFail, .Qnil, moduleM⟩, ⟨buildOk, .Qnil, moduleM⟩]).2.constructions = 2
    ∧ (runCalls Process.start
        [⟨buildFail, .Qnil, moduleM⟩, ⟨buildOk, .Qnil, moduleM⟩]).2.EE.isSome = true := by
  decide

/-! ## Signed and unsigned readings of an `APInt` -/

theorem toSigned_congr (w : Nat) (x y : Int) (h : x % (2 : Int) ^ w = y % (2 : Int) ^ w) :
    toSigned w x = toSigned w y := by
  simp only [toSigned, h]

theorem toSigned_of_range (w : Nat) (hw : 0 < w) (n : Int)
    (h1 : -(2 : Int) ^ (w - 1) ≤ n) (h2 : n < (2 : Int) ^ (w - 1)) : toSigned w n = n := by
  obtain ⟨k, rfl⟩ : ∃ k, w = k + 1 := ⟨w - 1, by omega⟩
  simp only [Nat.add_sub_cancel] at h1 h2
  have hP : (2 : Int) ^ (k + 1) = 2 * (2 : Int) ^ k := by rw [pow_succ]; ring
  have hpos : (0 : Int) < (2 : Int) ^ k := by positivity
  unfold toSigned
  simp only [Nat.add_sub_cancel]
  by_cases hn : 0 ≤ n
  · have e : n % (2 : Int) ^ (k + 1) = n := Int.emod_eq_of_lt hn (by rw [hP]; linarith)
    simp [e, h2]
  · have e1 : (n + (2 : Int) ^ (k + 1)) % (2 : Int) ^ (k + 1) = n + (2 : Int) ^ (k + 1) :=
      Int.emod_eq_of_lt (by rw [hP]; linarith) (by rw [hP]; linarith)
    have e2 : n % (2 : Int) ^ (k + 1) = n + (2 : Int) ^ (k + 1) := by
      rw [← e1]; simp
    rw [e2]
    have hge : ¬ (n + (2 : Int) ^ (k + 1) < (2 : Int) ^ k) := by rw [hP]; linarith
    simp [hge]

theorem ctor_signed_val (w : Nat) (hw : w ≤ 64) (n : Int) :
    ((APInt.ctor w n true).VAL : Int) = n % (2 : Int) ^ w := by
  have hdvd : (2 : Int) ^ w ∣ (2 : Int) ^ 64 := pow_dvd_pow 2 hw
  have hu : (n % (2 : Int) ^ 64) % (2 : Int) ^ w = n % (2 : Int) ^ w :=
    Int.emod_emod_of_dvd n hdvd
  have hpos : (0 : Int) < (2 : Int) ^ w := by positivity
  unfold APInt.ctor
  simp only []
  split
  · rw [Int.toNat_of_nonneg (Int.emod_nonneg _ (ne_of_gt hpos))]
    obtain ⟨c, hc⟩ := hdvd
    have h1 : (n % (2 : Int) ^ 64 - (2 : Int) ^ 64) % (2 : Int) ^ w
        = (n % (2 : Int) ^ 64 + (2 : Int) ^ w * (-c)) % (2 : Int) ^ w := by
      rw [hc]; congr 1; ring
    rw [h1, Int.add_mul_emod_self_left, hu]
  · rw [Int.toNat_of_nonneg (Int.emod_nonneg _ (ne_of_gt hpos)), hu]

/-- The integer half of the round trip: a host integer that fits a `long`
(of at most 64 bits) is stored in an `APInt` as wide as a `long` and read back
by `Gv2Val` as the same host integer. -/
theorem integer_round_trip (H : Host) (bw bw2 : Nat) (n : Int)
    (hw : 0 < H.sizeof_long) (hw8 : H.sizeof_long ≤ 8) (hn : inLongRange H n) :
    ∃ gv, Val2GV H (.integer n) ⟨.IntegerTyID, bw⟩ = .ok gv
      ∧ gv.IntVal.BitWidth = H.sizeof_long * 8
      ∧ gv.IntVal.getSExtValue = n
      ∧ Gv2Val H gv ⟨.IntegerTyID, bw2⟩ = .integer n := by
  have hw1 : 0 < H.sizeof_long * 8 := by omega
  have hw64 : H.sizeof_long * 8 ≤ 64 := by omega
  have hr : toSigned (H.sizeof_long * 8) n = n :=
    toSigned_of_range _ hw1 n hn.1 hn.2
  have hs : (APInt.ctor (H.sizeof_long * 8) n true).getSExtValue = n := by
    have hb : (APInt.ctor (H.sizeof_long * 8) n true).BitWidth = H.sizeof_long * 8 := rfl
    unfold APInt.getSExtValue
    rw [hb, if_pos hw64, ctor_signed_val _ hw64 n]
    rw [toSigned_congr _ (n % (2 : Int) ^ (H.sizeof_long * 8)) n (Int.emod_emod_of_dvd n (dvd_refl _))]
    exact hr
  refine ⟨{ GenericValue.new with IntVal := APInt.ctor (H.sizeof_long * 8) n true }, ?_, rfl, hs, ?_⟩
  · have hN : NUM2LONG H (.integer n) = .ok n := by simp [NUM2LONG, hn]
    by_cases hf : FIXABLE H n = true <;> simp [Val2GV, TYPE, hf, hN]
  · simp only [Gv2Val, INT2NUM, hs]
    simp [Host.longBits, hr]

/-! ## Where the code and the claims part -/

/-- C7: at a pointer type `Gv2Val` does not look at `PointerVal`: it returns
the `IntVal` of the native value, zero-extended and converted to a `long`.
A string object at address `addr`, marshalled by `Val2GV` at a pointer type,
has `PointerVal = addr` and the `IntVal` of a fresh `GenericValue`, and comes
back as the host integer 0, whatever `addr` is. -/
theorem Gv2Val_pointer_reads_IntVal (H : Host) (bw bw2 : Nat) (addr : Nat) :
    (∀ gv : GenericValue, Gv2Val H gv ⟨.PointerTyID, bw2⟩
        = .integer (toSigned H.longBits (gv.IntVal.getZExtValue : Int)))
    ∧ ∃ gv, Val2GV H (.heap .T_STRING addr) ⟨.PointerTyID, bw⟩ = .ok gv
        ∧ gv.PointerVal = addr
        ∧ Gv2Val H gv ⟨.PointerTyID, bw2⟩ = .integer 0 := by
  refine ⟨fun gv => by simp [Gv2Val, LONG2NUM], ?_⟩
  refine ⟨{ GenericValue.new with PointerVal := addr }, ?_, rfl, ?_⟩
  · simp [Val2GV, TYPE, HeapKind.toType, RBASIC_ptr]
  · have hpos : (0 : Int) < (2 : Int) ^ (H.longBits - 1) := by positivity
    simp [Gv2Val, LONG2NUM, GenericValue.new, APInt.ctor, APInt.getZExtValue, toSigned, hpos]

/-- C8 fails as stated: at the type `void`, `Val2GV` does not fail; it
returns a fresh `GenericValue` for any host value, here the integer 5. -/
theorem Val2GV_void_succeeds :
    Val2GV lp64 (.integer 5) voidTy = .ok GenericValue.new := by
  decide

/-- C8, as amended: at the type `void`, `Val2GV` returns a fresh native value
for every host value; at every other type a pair outside the table of
accepted inputs is rejected by an exception, which for a pointer type is the
unsupported-pointer argument error; and at a type outside void, float, double,
integer and pointer every host value is rejected with the argument error
"Can't convert VALUE into GenericValue", a text different from the pointer
one. -/
theorem Val2GV_rejects_outside_table (H : Host) (val : VALUE) (t : LType) :
    (t.getTypeID = .VoidTyID → Val2GV H val t = .ok GenericValue.new)
    ∧ (t.getTypeID ≠ .VoidTyID → accepted H val t.getTypeID = false →
        ∃ e, Val2GV H val t = .error e ∧ e.isRaise = true)
    ∧ (t.getTypeID = .PointerTyID → accepted H val t.getTypeID = false →
        Val2GV H val t = .error (.rb_eArgError
          "Can't convert pointer into GenericValue. That type is not supported."))
    ∧ (t.getTypeID ∉ knownCategories →
        Val2GV H val t = .error (.rb_eArgError "Can't convert VALUE into GenericValue"))
    ∧ RbError.rb_eArgError "Can't convert VALUE into GenericValue"
        ≠ RbError.rb_eArgError
          "Can't convert pointer into GenericValue. That type is not supported." := by
  obtain ⟨id, bw⟩ := t
  have hptr : id = .PointerTyID → accepted H val id = false →
      Val2GV H val ⟨id, bw⟩ = .error (.rb_eArgError
        "Can't convert pointer into GenericValue. That type is not supported.") := by
    intro hid hacc
    subst hid
    have h4 := Val2GV_pointer_cases H bw val
    simp only [accepted, Bool.or_eq_false_iff, decide_eq_false_iff_not] at hacc
    rw [h4, if_neg hacc.1, if_neg hacc.2]
  refine ⟨?_, ?_, hptr, ?_, by decide⟩
  · intro h
    simp only at h
    subst h
    simp [Val2GV]
  · intro hv hacc
    simp only at hv
    cases id with
    | VoidTyID => exact absurd rfl hv
    | FloatTyID =>
        cases val <;> simp [accepted, isNumeric] at hacc <;>
          exact ⟨.rb_eTypeError "can't convert into Float", by simp [Val2GV, NUM2DBL], rfl⟩
    | DoubleTyID =>
        cases val <;> simp [accepted, isNumeric] at hacc <;>
          exact ⟨.rb_eTypeError "can't convert into Float", by simp [Val2GV, NUM2DBL], rfl⟩
    | IntegerTyID =>
        cases val with
        | heap k addr =>
            cases k <;> exact ⟨.rb_eTypeError "can't convert into Integer",
              by simp [Val2GV, TYPE, HeapKind.toType, NUM2LONG], rfl⟩
        | symbol s => exact ⟨.rb_eTypeError "can't convert into Integer",
            by simp [Val2GV, TYPE, NUM2LONG], rfl⟩
        | data a w => exact ⟨.rb_eTypeError "can't convert into Integer",
            by simp [Val2GV, TYPE, NUM2LONG], rfl⟩
        | _ => simp [accepted, isNumeric] at hacc
    | PointerTyID => exact ⟨_, hptr rfl hacc, rfl⟩
    | _ => exact ⟨.rb_eArgError "Can't convert VALUE into GenericValue",
        by simp [Val2GV], rfl⟩
  · intro hk
    simp only [knownCategories, List.mem_cons, List.mem_singleton, not_or] at hk
    cases id <;> simp_all [Val2GV]

/-- Witness for C8 as amended: `void` takes `nil`; `true` at a pointer type
and a string at `double` are rejected; at a label type the integer 5 is
rejected with the conversion error. -/
theorem Val2GV_rejects_outside_table_witness :
    Val2GV lp64 .Qnil voidTy = .ok GenericValue.new
    ∧ (∃ e, Val2GV lp64 (.heap .T_STRING 4096) doubleTy = .error e ∧ e.isRaise = true)
    ∧ Val2GV lp64 .Qtrue ptrTy = .error (.rb_eArgError
        "Can't convert pointer into GenericValue. That type is not supported.")
    ∧ Val2GV lp64 (.integer 5) ⟨.LabelTyID, 0⟩
        = .error (.rb_eArgError "Can't convert VALUE into GenericValue") :=
  ⟨(Val2GV_rejects_outside_table lp64 .Qnil voidTy).1 rfl,
   (Val2GV_rejects_outside_table lp64 (.heap .T_STRING 4096) doubleTy).2.1
     (by decide) (by decide),
   (Val2GV_rejects_outside_table lp64 .Qtrue ptrTy).2.2.1 rfl (by decide),
   (Val2GV_rejects_outside_table lp64 (.integer 5) ⟨.LabelTyID, 0⟩).2.2.2.1 (by decide)⟩

/-- C10: marshalling `true` at an integer type and reading the result back at
an integer type yields the host integer -1, not 1: `Val2GV` leaves the
`APInt` one bit wide and `Gv2Val` sign-extends it.  `false` comes back as 0. -/
theorem true_round_trip_is_minus_one :
    Val2GV lp64 .Qtrue i64 = .ok { GenericValue.new with IntVal := ⟨1, 1⟩ }
    ∧ Gv2Val lp64 { GenericValue.new with IntVal := ⟨1, 1⟩ } i64 = .integer (-1)
    ∧ Val2GV lp64 .Qfalse i64 = .ok { GenericValue.new with IntVal := ⟨1, 0⟩ }
    ∧ Gv2Val lp64 { GenericValue.new with IntVal := ⟨1, 0⟩ } i64 = .integer 0 := by
  decide

end LLVMRuby
